import Mathlib

/-!
Verification of the LabelMe-to-segmentation-mask converter (`src/q.py`).

The development shallowly embeds the program's data model and operations:
annotation files are modelled as already-parsed records, the Python dict
used for the class mapping is modelled as an association list with
insertion-order semantics (an update of an existing key keeps its position,
like a Python dict), the random stream of `random.randint` is an explicit
function parameter, and the filesystem is an explicit existence predicate.
Raster canvases are modelled as pixel functions.
-/

/-- One polygon annotation from a LabelMe file: a `label` and a point list.
Coordinates are modelled as integers, as in the specification's examples. -/
structure Shape where
  label : String
  points : List (Int × Int)
deriving DecidableEq, Repr

/-- The parsed content of one annotation file (`imageWidth`, `imageHeight`,
`imagePath`, `shapes`), mirroring the fields read by `q.py`. -/
structure LabelmeRecord where
  imageWidth : Nat
  imageHeight : Nat
  imagePath : String
  shapes : List Shape
deriving DecidableEq, Repr

/-- An RGB triple, each channel a natural number (0 to 255 in practice). -/
abbrev Color := Nat × Nat × Nat

/-! ### POSIX path helpers

These model the Python standard library functions `os.path.isabs`,
`os.path.basename`, `os.path.join` and `os.path.splitext` for POSIX
paths, which `q.py` uses for all path manipulation. -/

/-- Model of `os.path.isabs` on POSIX: a path is absolute iff it starts
with a slash. -/
def isabs (p : String) : Bool :=
  p.data.head? = some '/'

/-- Model of `os.path.basename` on POSIX: everything after the final
slash (empty if the path ends in a slash). -/
def basename (p : String) : String :=
  ⟨(p.data.reverse.takeWhile (fun c => c ≠ '/')).reverse⟩

/-- Model of the two-argument `os.path.join` on POSIX: an absolute second
component wins; otherwise the components are glued with a single slash
unless the first is empty or already ends in a slash. -/
def joinPath (a b : String) : String :=
  if isabs b then b
  else if a = "" then b
  else if a.data.getLast? = some '/' then a ++ b
  else a ++ "/" ++ b

/-- Model of `os.path.splitext`'s first component on POSIX for names
without directory separators (the argument is always a basename here):
the name with its final extension removed, where a dot carries an
extension only if some earlier character of the name is not a dot —
leading dots (as in `.bashrc` or `..foo`) never start an extension. -/
def stripExt (s : String) : String :=
  match s.data.reverse.dropWhile (fun c => c ≠ '.') with
  | '.' :: rest => if rest.all (fun c => c = '.') then s else ⟨rest.reverse⟩
  | _ => s

/-! ### Lexicographic string order

Python's `sorted` compares strings lexicographically by code point.  The
comparison is embedded as a structurally recursive boolean on the
character lists, so that it evaluates inside the kernel. -/

/-- Lexicographic (code-point) comparison of character lists: the order
Python uses on strings. -/
def charListLeb : List Char → List Char → Bool
  | [], _ => true
  | _ :: _, [] => false
  | a :: as, b :: bs =>
    if a < b then true else if b < a then false else charListLeb as bs

/-- Lexicographic comparison of strings by code point. -/
def strLeb (a b : String) : Bool := charListLeb a.data b.data

/-! ### Vocabulary builder (`auto_detect_classes`) -/

/-- All shape labels of a collection of records, in encounter order: the
contents of the Python set `all_labels` before deduplication. -/
def labelList (records : List LabelmeRecord) : List String :=
  records.flatMap (fun r => r.shapes.map Shape.label)

/-- The distinct labels in lexicographic order: Python's
`sorted(all_labels)` (the set is modelled as dedup followed by a sort,
which is order-insensitive). -/
def sortedLabels (records : List LabelmeRecord) : List String :=
  List.insertionSort (fun a b => strLeb a b = true) (labelList records).dedup

/-- Python-dict assignment `d[k] = v` on an association list: an existing
key is updated in place (keeping its position, as a Python dict does),
a new key is appended. -/
def dictSet (d : List (String × Nat)) (k : String) (v : Nat) : List (String × Nat) :=
  if d.any (fun p => p.1 == k) then
    d.map (fun p => if p.1 == k then (k, v) else p)
  else d ++ [(k, v)]

/-- Embedding of `auto_detect_classes` (`q.py` lines 134-155): start from
the dict containing `"background" ↦ 0`, then assign ids 1, 2, … to the
sorted labels via Python-dict assignment. -/
def auto_detect_classes (records : List LabelmeRecord) : List (String × Nat) :=
  (List.enumFrom 1 (sortedLabels records)).foldl
    (fun d p => dictSet d p.2 p.1) [("background", 0)]



/-! ### Palette generator (`generate_class_colors`) -/

/-- Model of Python's `random.randint lo hi` (inclusive bounds): the raw
draw `r` from the random stream is reduced into the interval. -/
def randint (lo hi r : Nat) : Nat := lo + r % (hi - lo + 1)

/-- Embedding of `generate_class_colors` (`q.py` lines 59-68): entry 0 is
black, and for each `i` in `range(1, num_classes)` three fresh draws from
the random stream `g` give an RGB triple with channels in `[50, 255]`.
The module-level random generator is modelled as the explicit stream
`g`, consumed three values per loop iteration. -/
def generate_class_colors (num_classes : Nat) (g : Nat → Nat) : List Color :=
  (0, 0, 0) :: (List.range' 1 (num_classes - 1)).map
    (fun i => (randint 50 255 (g (3 * i)), randint 50 255 (g (3 * i + 1)),
               randint 50 255 (g (3 * i + 2))))


/-! ### Rasterizer (`json_to_mask`)

The polygon fill itself is performed by PIL's `ImageDraw.polygon`, which
is library code outside this repository. -/

/-- Modelled from the spec: the scan-line point-in-polygon fill rule of
PIL's `ImageDraw.polygon` (library code, not in `src/`), described in
§4.3 as "a standard scan-line point-in-polygon fill (even-odd …)".
`edgeCross` decides whether the horizontal ray from pixel `(x, y)`
towards `+∞` crosses the edge `e`; horizontal edges never cross, and
each edge covers its lower endpoint's scan line only, the even-odd
convention. -/
def edgeCross (x y : Int) (e : (Int × Int) × (Int × Int)) : Bool :=
  let x1 := e.1.1
  let y1 := e.1.2
  let x2 := e.2.1
  let y2 := e.2.2
  ((decide (y1 ≤ y) && decide (y < y2)) || (decide (y2 ≤ y) && decide (y < y1))) &&
    (if y1 < y2 then decide ((x - x1) * (y2 - y1) < (y - y1) * (x2 - x1))
     else decide ((x - x1) * (y2 - y1) > (y - y1) * (x2 - x1)))

/-- Modelled from the spec: even-odd point-in-polygon test for pixel
`(px, py)` — the pixel is inside iff the ray to the right crosses an odd
number of polygon edges (edges join consecutive points, closing back to
the first point). -/
def inPoly (pts : List (Int × Int)) (px py : Nat) : Bool :=
  let es := pts.zip (pts.drop 1 ++ pts.take 1)
  (es.countP (edgeCross (px : Int) (py : Int))) % 2 == 1

/-- The shape-drawing loop of `json_to_mask` (`q.py` lines 25-44): each
shape whose label is in the mapping is filled onto both canvases with
its class id / palette color (later shapes painting over earlier ones);
an unmapped label is skipped with a warning; a class id beyond the
palette is Python's `IndexError`, modelled as `none`. -/
def drawShapes (mapping : List (String × Nat)) (palette : List Color) :
    List Shape → (Nat → Nat → Nat) → (Nat → Nat → Color) → List String →
    Option ((Nat → Nat → Nat) × (Nat → Nat → Color) × List String)
  | [], m, c, w => some (m, c, w)
  | s :: rest, m, c, w =>
    match mapping.lookup s.label with
    | none => drawShapes mapping palette rest m c (w ++ [s.label])
    | some cid =>
      match palette[cid]? with
      | none => none
      | some col =>
        drawShapes mapping palette rest
          (fun x y => if inPoly s.points x y then cid else m x y)
          (fun x y => if inPoly s.points x y then col else c x y) w

/-- The result of rasterizing one record: the class-index mask and the
color mask as pixel functions, the warnings printed for skipped labels,
and the two output file paths. -/
structure MaskOutput where
  mask : Nat → Nat → Nat
  colorMask : Nat → Nat → Color
  warnings : List String
  maskPath : String
  colorMaskPath : String

/-- Embedding of `json_to_mask` (`q.py` lines 8-57): both canvases start
all background (0 / black), the shapes are drawn in order, and the masks
are written to `<base>.png` and `<base>_color.png` where `base` is the
record's image file name without directory and extension. -/
def json_to_mask (output_mask_dir output_color_mask_dir : String)
    (r : LabelmeRecord) (mapping : List (String × Nat)) (palette : List Color) :
    Option MaskOutput :=
  match drawShapes mapping palette r.shapes (fun _ _ => 0) (fun _ _ => (0, 0, 0)) [] with
  | none => none
  | some (m, c, w) =>
    let base := stripExt (basename r.imagePath)
    some ⟨m, c, w, joinPath output_mask_dir (base ++ ".png"),
          joinPath output_color_mask_dir (base ++ "_color.png")⟩

/-! ### Batch orchestrator (`process_labelme_folder`) -/

/-- The counters and side effects of one batch run: the `processed` and
`error` counters, the image files copied into `images/`, and the mask
files written. -/
structure BatchResult where
  processed : Nat
  errors : Nat
  copied : List String
  masksWritten : List String
deriving DecidableEq, Repr

/-- Sequencing of two batch results: counters add, written files append. -/
def combineBatch (a b : BatchResult) : BatchResult :=
  ⟨a.processed + b.processed, a.errors + b.errors,
   a.copied ++ b.copied, a.masksWritten ++ b.masksWritten⟩

/-- Source-image resolution of `process_labelme_folder` (`q.py` lines
102-108): a relative `imagePath` has its basename joined to the input
directory; an absolute one is used as-is. -/
def resolve_image_path (input_dir image_filename : String) : String :=
  if isabs image_filename = false then
    joinPath input_dir (basename image_filename)
  else image_filename

/-- Modelled from the spec: the resolution rule as §4.4 states it —
"if `imagePath` is relative, resolve it against the input location's
directory; if absolute, use as-is". Stated for comparison with the
source's `resolve_image_path`. -/
def spec_resolve_image_path (input_dir image_filename : String) : String :=
  if isabs image_filename = false then joinPath input_dir image_filename
  else image_filename

/-- The per-file body of the batch loop (`q.py` lines 94-121): a file
that fails to parse into a structurally complete record (`none`) is one
error; otherwise the record is rasterized (an `IndexError` there is also
one error); on success the resolved source image is copied into
`images/` when it exists (a warning is printed otherwise) and the record
counts as processed. The filesystem is the existence predicate `fs`. -/
def process_one (input_dir output_base_dir : String) (fs : String → Bool)
    (mapping : List (String × Nat)) (palette : List Color) :
    Option LabelmeRecord → BatchResult
  | none => ⟨0, 1, [], []⟩
  | some r =>
    match json_to_mask (joinPath output_base_dir "masks")
        (joinPath output_base_dir "color_masks") r mapping palette with
    | none => ⟨0, 1, [], []⟩
    | some o =>
      let image_path := resolve_image_path input_dir r.imagePath
      let copied := if fs image_path then
          [joinPath (joinPath output_base_dir "images") (basename image_path)]
        else []
      ⟨1, 0, copied, [o.maskPath, o.colorMaskPath]⟩

/-- Embedding of the enumeration loop of `process_labelme_folder`
(`q.py` lines 90-121): each directory entry is a file name paired with
its parse outcome; only names ending in `.json` are considered, and the
per-file results are accumulated in order. -/
def isJsonFile (name : String) : Bool := ".json".data.isSuffixOf name.data

/-- One iteration of the batch loop: a `.json` entry is handed to
`process_one` and its result accumulated; any other entry is ignored. -/
def processStep (input_dir output_base_dir : String) (fs : String → Bool)
    (mapping : List (String × Nat)) (palette : List Color)
    (acc : BatchResult) (f : String × Option LabelmeRecord) : BatchResult :=
  if isJsonFile f.1 then
    combineBatch acc (process_one input_dir output_base_dir fs mapping palette f.2)
  else acc

/-- The batch loop over the directory listing `files`. -/
def process_labelme_folder (input_dir output_base_dir : String)
    (fs : String → Bool) (mapping : List (String × Nat)) (palette : List Color)
    (files : List (String × Option LabelmeRecord)) : BatchResult :=
  files.foldl (processStep input_dir output_base_dir fs mapping palette)
    ⟨0, 0, [], []⟩

/-! ### Report writer (`class_colors.txt`) -/

/-- The data lines of `class_colors.txt` (`q.py` lines 128-132): one
line per mapping entry, in dict iteration order, carrying the class id,
the class name and the palette color of that id; an id beyond the
palette is Python's `IndexError`, modelled as `none`. -/
def class_colors_report : List (String × Nat) → List Color →
    Option (List (Nat × String × Color))
  | [], _ => some []
  | p :: rest, palette =>
    match palette[p.2]?, class_colors_report rest palette with
    | some col, some lines => some ((p.2, p.1, col) :: lines)
    | _, _ => none


/-! ### Concrete sample inputs used by witnesses and counterexamples -/

/-- The full-canvas rectangle polygon of the round-trip property:
`[[0,0],[W,0],[W,H],[0,H]]`. -/
def rectPts (W H : Nat) : List (Int × Int) :=
  [(0, 0), ((W : Int), 0), ((W : Int), (H : Int)), (0, (H : Int))]

/-- The two-class mapping of the round-trip example. -/
def mappingCat : List (String × Nat) := [("background", 0), ("cat", 1)]

/-- A palette for the round-trip example. -/
def paletteCat : List Color := [(0, 0, 0), (10, 20, 30)]

/-- Sample input for the vocabulary builder: one record with labels
`"cat"` and `"dog"` (no `"background"` label in the data). -/
def recordsW : List LabelmeRecord :=
  [⟨4, 4, "a.png", [⟨"cat", [(0, 0)]⟩, ⟨"dog", [(0, 0)]⟩]⟩]

/-- Input whose shapes use the literal label `"background"` together
with another label. -/
def recordsBgA : List LabelmeRecord :=
  [⟨4, 4, "a.png", [⟨"a", [(0, 0)]⟩, ⟨"background", [(0, 0)]⟩]⟩]

/-- Input whose only shape is labeled `"background"`. -/
def recordsBg : List LabelmeRecord :=
  [⟨4, 4, "a.png", [⟨"background", [(0, 0), (4, 0), (4, 4), (0, 4)]⟩]⟩]

/-- The shape with the unmapped label of the spec's scenario. -/
def shapeUnknown : Shape := ⟨"unknown_xyz", [(0, 0), (4, 0), (4, 4), (0, 4)]⟩


lemma charListLeb_total : ∀ l1 l2 : List Char,
    charListLeb l1 l2 = true ∨ charListLeb l2 l1 = true
  | [], _ => by left; simp [charListLeb]
  | _ :: _, [] => by right; simp [charListLeb]
  | a :: as, b :: bs => by
    rcases lt_trichotomy a b with h | h | h
    · left; simp [charListLeb, h]
    · subst h
      rcases charListLeb_total as bs with ih | ih
      · left; simp [charListLeb, ih, lt_irrefl]
      · right; simp [charListLeb, ih, lt_irrefl]
    · right; simp [charListLeb, h]

lemma charListLeb_trans : ∀ l1 l2 l3 : List Char, charListLeb l1 l2 = true →
    charListLeb l2 l3 = true → charListLeb l1 l3 = true
  | [], _, _ => by simp [charListLeb]
  | _ :: _, [], _ => by simp [charListLeb]
  | _ :: _, _ :: _, [] => by simp [charListLeb]
  | a :: as, b :: bs, c :: cs => by
    intro h1 h2
    rcases lt_trichotomy a b with hab | hab | hab
    · rcases lt_trichotomy b c with hbc | hbc | hbc
      · simp [charListLeb, lt_trans hab hbc]
      · subst hbc; simp [charListLeb, hab]
      · simp [charListLeb, hbc, lt_asymm hbc] at h2
    · subst hab
      simp [charListLeb, lt_irrefl] at h1
      rcases lt_trichotomy a c with hac | hac | hac
      · simp [charListLeb, hac]
      · subst hac
        simp [charListLeb, lt_irrefl] at h2 ⊢
        exact charListLeb_trans as bs cs h1 h2
      · simp [charListLeb, hac, lt_asymm hac] at h2
    · simp [charListLeb, hab, lt_asymm hab] at h1

lemma charListLeb_antisymm : ∀ l1 l2 : List Char, charListLeb l1 l2 = true →
    charListLeb l2 l1 = true → l1 = l2
  | [], [] => by simp
  | [], _ :: _ => by simp [charListLeb]
  | _ :: _, [] => by simp [charListLeb]
  | a :: as, b :: bs => by
    intro h1 h2
    rcases lt_trichotomy a b with hab | hab | hab
    · simp [charListLeb, hab, lt_asymm hab] at h2
    · subst hab
      simp [charListLeb, lt_irrefl] at h1 h2
      simp [charListLeb_antisymm as bs h1 h2]
    · simp [charListLeb, hab, lt_asymm hab] at h1

instance : IsTotal String (fun a b => strLeb a b = true) :=
  ⟨fun a b => charListLeb_total a.data b.data⟩

instance : IsTrans String (fun a b => strLeb a b = true) :=
  ⟨fun a b c => charListLeb_trans a.data b.data c.data⟩

instance : IsAntisymm String (fun a b => strLeb a b = true) :=
  ⟨fun a b h1 h2 => by
    cases a; cases b
    exact congrArg String.mk (charListLeb_antisymm _ _ h1 h2)⟩

/-! ### Helper lemmas on the vocabulary builder -/

lemma mem_sortedLabels {l : String} {records : List LabelmeRecord} :
    l ∈ sortedLabels records ↔ l ∈ labelList records := by
  unfold sortedLabels
  rw [(List.perm_insertionSort _ _).mem_iff, List.mem_dedup]

lemma sortedLabels_nodup (records : List LabelmeRecord) :
    (sortedLabels records).Nodup :=
  (List.perm_insertionSort _ _).nodup_iff.mpr (List.nodup_dedup _)

lemma sortedLabels_perm_eq {r1 r2 : List LabelmeRecord} (h : r1.Perm r2) :
    sortedLabels r1 = sortedLabels r2 := by
  have hl : (labelList r1).Perm (labelList r2) := h.flatMap_right _
  exact List.eq_of_perm_of_sorted
    (((List.perm_insertionSort _ _).trans hl.dedup).trans
      (List.perm_insertionSort _ _).symm)
    (List.sorted_insertionSort _ _) (List.sorted_insertionSort _ _)

lemma dictSet_of_fresh (d : List (String × Nat)) (k : String) (v : Nat)
    (h : ∀ q ∈ d, q.1 ≠ k) : dictSet d k v = d ++ [(k, v)] := by
  unfold dictSet
  rw [if_neg]
  intro hc
  simp only [List.any_eq_true, beq_iff_eq] at hc
  obtain ⟨q, hq, he⟩ := hc
  exact h q hq he

lemma foldl_dictSet_fresh :
    ∀ (pairs : List (Nat × String)) (d : List (String × Nat)),
      (∀ p ∈ pairs, ∀ q ∈ d, q.1 ≠ p.2) → (pairs.map Prod.snd).Nodup →
      pairs.foldl (fun acc p => dictSet acc p.2 p.1) d
        = d ++ pairs.map (fun p => (p.2, p.1))
  | [], d, _, _ => by simp
  | p :: ps, d, hfresh, hnd => by
    rw [List.foldl_cons,
      dictSet_of_fresh _ _ _ (fun q hq => hfresh p (by simp) q hq),
      foldl_dictSet_fresh ps (d ++ [(p.2, p.1)]) ?_ ?_]
    · simp
    · intro p2 hp2 q hq
      rcases List.mem_append.mp hq with hqd | hqp
      · exact hfresh p2 (List.mem_cons_of_mem _ hp2) q hqd
      · have hq1 : q.1 = p.2 := by
          simp only [List.mem_singleton] at hqp
          rw [hqp]
        rw [hq1]
        intro he
        have : p.2 ∈ ps.map Prod.snd := he ▸ List.mem_map_of_mem Prod.snd hp2
        simp only [List.map_cons, List.nodup_cons] at hnd
        exact hnd.1 this
    · simp only [List.map_cons, List.nodup_cons] at hnd
      exact hnd.2

/-- Under the hypothesis that no shape is literally labeled
`"background"`, the vocabulary builder yields the background entry
followed by the sorted labels with ids 1, 2, …. -/
lemma auto_detect_classes_eq (records : List LabelmeRecord)
    (h : "background" ∉ labelList records) :
    auto_detect_classes records
      = ("background", 0)
        :: (List.enumFrom 1 (sortedLabels records)).map (fun p => (p.2, p.1)) := by
  unfold auto_detect_classes
  rw [foldl_dictSet_fresh]
  · simp
  · intro p hp q hq
    simp only [List.mem_singleton] at hq
    rw [hq]
    intro he
    apply h
    have hb : "background" = p.2 := he
    rw [hb]
    apply mem_sortedLabels.mp
    have : p.2 ∈ (List.enumFrom 1 (sortedLabels records)).map Prod.snd :=
      List.mem_map_of_mem Prod.snd hp
    rwa [List.enumFrom_map_snd] at this
  · rw [List.enumFrom_map_snd]
    exact sortedLabels_nodup records

lemma auto_detect_classes_keys (records : List LabelmeRecord)
    (h : "background" ∉ labelList records) :
    (auto_detect_classes records).map Prod.fst
      = "background" :: sortedLabels records := by
  rw [auto_detect_classes_eq records h, List.map_cons, List.map_map]
  show _ :: List.map Prod.snd (List.enumFrom 1 (sortedLabels records)) = _
  rw [List.enumFrom_map_snd]

lemma auto_detect_classes_ids (records : List LabelmeRecord)
    (h : "background" ∉ labelList records) :
    (auto_detect_classes records).map Prod.snd
      = List.range (auto_detect_classes records).length := by
  have hlen : (auto_detect_classes records).length
      = (sortedLabels records).length + 1 := by
    rw [auto_detect_classes_eq records h]
    simp [List.enumFrom_length]
  rw [hlen, auto_detect_classes_eq records h, List.map_cons, List.map_map]
  show 0 :: List.map Prod.fst (List.enumFrom 1 (sortedLabels records)) = _
  rw [List.enumFrom_map_fst, List.range_eq_range']
  rfl

/-- C1: for every collection of annotation records the mapping built by
`auto_detect_classes` is unchanged under any permutation of the input
records; and whenever no shape is labeled `"background"`, it assigns
id 0 to `"background"`, its keys are exactly the observed labels
together with `"background"` without duplicates, and its ids are exactly
the dense range `0, …, size − 1`.  (The restriction on the second part
is forced by the behavior exhibited in
`auto_detect_classes_background_cex`.) -/
theorem auto_detect_classes_correct (records : List LabelmeRecord) :
    (∀ records2, records.Perm records2 →
      auto_detect_classes records2 = auto_detect_classes records) ∧
    ("background" ∉ labelList records →
      ((auto_detect_classes records).lookup "background" = some 0) ∧
      ((auto_detect_classes records).map Prod.fst
        = "background" :: sortedLabels records) ∧
      (((auto_detect_classes records).map Prod.fst).Nodup) ∧
      (∀ l, l ∈ (auto_detect_classes records).map Prod.fst ↔
        (l = "background" ∨ l ∈ labelList records)) ∧
      ((auto_detect_classes records).map Prod.snd
        = List.range (auto_detect_classes records).length)) := by
  constructor
  · intro records2 hperm
    unfold auto_detect_classes
    rw [sortedLabels_perm_eq hperm.symm]
  · intro h
    refine ⟨?_, auto_detect_classes_keys records h, ?_, ?_,
      auto_detect_classes_ids records h⟩
    · rw [auto_detect_classes_eq records h]
      simp [List.lookup]
    · rw [auto_detect_classes_keys records h, List.nodup_cons]
      exact ⟨fun hc => h (mem_sortedLabels.mp hc), sortedLabels_nodup records⟩
    · intro l
      rw [auto_detect_classes_keys records h, List.mem_cons, mem_sortedLabels]

/-- Witness for C1 at a concrete two-label collection. -/
theorem auto_detect_classes_correct_witness :
    (∀ records2, recordsW.Perm records2 →
      auto_detect_classes records2 = auto_detect_classes recordsW) ∧
    ("background" ∉ labelList recordsW) ∧
    (((auto_detect_classes recordsW).lookup "background" = some 0) ∧
    ((auto_detect_classes recordsW).map Prod.fst
      = "background" :: sortedLabels recordsW) ∧
    (((auto_detect_classes recordsW).map Prod.fst).Nodup) ∧
    (∀ l, l ∈ (auto_detect_classes recordsW).map Prod.fst ↔
      (l = "background" ∨ l ∈ labelList recordsW)) ∧
    ((auto_detect_classes recordsW).map Prod.snd
      = List.range (auto_detect_classes recordsW).length)) :=
  ⟨(auto_detect_classes_correct recordsW).1, by decide,
   (auto_detect_classes_correct recordsW).2 (by decide)⟩

/-- Counterexample to C1 as stated: with a shape literally labeled
`"background"` in the data, the builder does not assign id 0 to
`"background"` (it is reassigned to its position in the sorted label
list), and no key at all receives id 0, so the ids are not a dense range
starting at 0. -/
theorem auto_detect_classes_background_cex :
    (auto_detect_classes recordsBgA).lookup "background" = some 2 ∧
    (∀ p ∈ auto_detect_classes recordsBgA, p.2 ≠ 0) := by decide

/-- C2 (code bug): with a single record whose only shape is labeled
`"background"`, the builder's own seed entry `"background" ↦ 0` is
overwritten by the enumeration loop, so the returned mapping sends
`"background"` to 1, not 0 — contradicting the source comment at
`q.py` line 150 ("фон всегда 0": the background is always 0) and the
claim. -/
theorem background_label_overwritten :
    auto_detect_classes recordsBg = [("background", 1)] ∧
    (auto_detect_classes recordsBg).lookup "background" ≠ some 0 := by decide

/-- C5: for every `num_classes ≥ 1` the palette has exactly
`num_classes` entries, entry 0 is black, and every later entry has all
three channels in `[50, 255]`, whatever the random stream produced. -/
theorem generate_class_colors_spec (n : Nat) (g : Nat → Nat) (h : 1 ≤ n) :
    (generate_class_colors n g).length = n ∧
    (generate_class_colors n g)[0]? = some (0, 0, 0) ∧
    (∀ i, 1 ≤ i → i < n → ∃ c : Color,
      (generate_class_colors n g)[i]? = some c ∧
      50 ≤ c.1 ∧ c.1 ≤ 255 ∧ 50 ≤ c.2.1 ∧ c.2.1 ≤ 255 ∧
      50 ≤ c.2.2 ∧ c.2.2 ≤ 255) := by
  refine ⟨?_, by simp [generate_class_colors], ?_⟩
  · simp only [generate_class_colors, List.length_cons, List.length_map,
      List.length_range']
    omega
  · intro i h1 h2
    obtain ⟨j, rfl⟩ : ∃ j, i = j + 1 := ⟨i - 1, by omega⟩
    have hj : j < n - 1 := by omega
    have hc : (generate_class_colors n g)[j + 1]?
        = some (randint 50 255 (g (3 * (1 + 1 * j))),
                randint 50 255 (g (3 * (1 + 1 * j) + 1)),
                randint 50 255 (g (3 * (1 + 1 * j) + 2))) := by
      simp only [generate_class_colors, List.getElem?_cons_succ,
        List.getElem?_map, List.getElem?_range' 1 1 hj, Option.map_some']
    refine ⟨_, hc, ?_, ?_, ?_, ?_, ?_, ?_⟩
    all_goals
      dsimp only
      simp only [randint]
      omega

/-- Witness for C5 at `num_classes = 3`. -/
theorem generate_class_colors_spec_witness :
    1 ≤ 3 ∧
    ((generate_class_colors 3 (fun k => 100 * k)).length = 3 ∧
    (generate_class_colors 3 (fun k => 100 * k))[0]? = some (0, 0, 0) ∧
    (∀ i, 1 ≤ i → i < 3 → ∃ c : Color,
      (generate_class_colors 3 (fun k => 100 * k))[i]? = some c ∧
      50 ≤ c.1 ∧ c.1 ≤ 255 ∧ 50 ≤ c.2.1 ∧ c.2.1 ≤ 255 ∧
      50 ≤ c.2.2 ∧ c.2.2 ≤ 255)) :=
  ⟨by decide, generate_class_colors_spec 3 (fun k => 100 * k) (by decide)⟩

/-- C10: for every `num_classes` (including 0) the palette length is
`max num_classes 1`; called with 0 classes the generator still returns
the single black entry rather than an empty list. -/
theorem generate_class_colors_length_max :
    (∀ n : Nat, ∀ g : Nat → Nat,
      (generate_class_colors n g).length = max n 1) ∧
    (∀ g : Nat → Nat, generate_class_colors 0 g = [(0, 0, 0)]) := by
  constructor
  · intro n g
    simp only [generate_class_colors, List.length_cons, List.length_map,
      List.length_range']
    omega
  · intro g
    rfl

lemma basename_eq_self (p : String) (h : ∀ c ∈ p.data, c ≠ '/') :
    basename p = p := by
  unfold basename
  have ht : p.data.reverse.takeWhile (fun c => c ≠ '/') = p.data.reverse := by
    rw [List.takeWhile_eq_self_iff]
    intro x hx
    simp only [List.mem_reverse] at hx
    simp [h x hx]
  rw [ht, List.reverse_reverse]

lemma basename_no_slash (p : String) : ∀ c ∈ (basename p).data, c ≠ '/' := by
  intro c hc
  unfold basename at hc
  simp only [List.mem_reverse] at hc
  have hp := List.mem_takeWhile_imp hc
  simpa using hp

lemma isabs_eq_false_of_no_slash (s : String) (h : ∀ c ∈ s.data, c ≠ '/') :
    isabs s = false := by
  unfold isabs
  rw [decide_eq_false_iff_not]
  intro hc
  cases hd : s.data with
  | nil => rw [hd] at hc; simp at hc
  | cons c rest =>
    rw [hd] at hc
    simp only [List.head?_cons, Option.some.injEq] at hc
    exact h c (hd ▸ List.mem_cons_self c rest) hc

lemma basename_length_lt (p : String) (hs : '/' ∈ p.data) :
    (basename p).data.length < p.data.length := by
  unfold basename
  simp only [List.length_reverse]
  have hle : (p.data.reverse.takeWhile (fun c => c ≠ '/')).length
      ≤ p.data.reverse.length := (List.takeWhile_prefix _).length_le
  rw [List.length_reverse] at hle
  rcases lt_or_eq_of_le hle with hlt | heq
  · exact hlt
  · exfalso
    have hself : p.data.reverse.takeWhile (fun c => c ≠ '/') = p.data.reverse :=
      (List.takeWhile_prefix _).eq_of_length (by rw [heq, List.length_reverse])
    have hall := List.takeWhile_eq_self_iff.mp hself '/' (List.mem_reverse.mpr hs)
    simp at hall

lemma append_ne_of_data_length_ne (a : String) {x y : String}
    (h : x.data.length ≠ y.data.length) : a ++ x ≠ a ++ y := by
  intro he
  apply h
  have hd : (a ++ x).data.length = (a ++ y).data.length := by rw [he]
  rw [String.data_append, String.data_append, List.length_append,
    List.length_append] at hd
  omega

/-- A relative path that does contain a directory separator is resolved
differently by the source (which drops the directory part) and by the
spec's rule. -/
lemma resolve_ne_of_slash (dir p : String) (h : isabs p = false)
    (hs : '/' ∈ p.data) :
    resolve_image_path dir p ≠ spec_resolve_image_path dir p := by
  have hlen : (basename p).data.length < p.data.length := basename_length_lt p hs
  have hnabs : isabs (basename p) = false :=
    isabs_eq_false_of_no_slash _ (basename_no_slash p)
  unfold resolve_image_path spec_resolve_image_path
  simp only [h, eq_self_iff_true, if_true]
  unfold joinPath
  simp only [hnabs, h, Bool.false_eq_true, if_false]
  by_cases hd1 : dir = ""
  · simp only [hd1, if_true]
    intro he
    rw [he] at hlen
    omega
  · simp only [hd1, if_false]
    by_cases hd2 : dir.data.getLast? = some '/'
    · simp only [hd2, if_true]
      exact append_ne_of_data_length_ne dir (by omega)
    · simp only [hd2, if_false]
      exact append_ne_of_data_length_ne (dir ++ "/") (by omega)

/-- C3 (amended): the copy source is the record's `imagePath` itself
when absolute; when relative, the source joins the input directory with
the **basename** of `imagePath` — which agrees with the spec's
"resolve against the input location's directory" if and only if the
relative path has no directory separator.  (The restriction is forced
by `resolve_image_path_drops_subdir`.) -/
theorem resolve_image_path_characterization (input_dir p : String) :
    (isabs p = true → resolve_image_path input_dir p = p) ∧
    (isabs p = false →
      resolve_image_path input_dir p = joinPath input_dir (basename p)) ∧
    (isabs p = false →
      ((resolve_image_path input_dir p = spec_resolve_image_path input_dir p) ↔
        (∀ c ∈ p.data, c ≠ '/'))) := by
  refine ⟨?_, ?_, ?_⟩
  · intro h
    unfold resolve_image_path
    rw [h]
    rfl
  · intro h
    unfold resolve_image_path
    rw [h]
    rfl
  · intro h
    constructor
    · intro heq
      by_contra hslash
      push_neg at hslash
      obtain ⟨c, hc, rfl⟩ := hslash
      exact resolve_ne_of_slash input_dir p h hc heq
    · intro hs
      unfold resolve_image_path spec_resolve_image_path
      rw [h, basename_eq_self p hs]

/-- Witness for C3 at a plain relative file name, a relative name with a
directory component, and an absolute path. -/
theorem resolve_image_path_characterization_witness :
    resolve_image_path "indir" "b.png" = joinPath "indir" (basename "b.png") ∧
    resolve_image_path "indir" "b.png" = spec_resolve_image_path "indir" "b.png" ∧
    resolve_image_path "indir" "s/b.png" ≠ spec_resolve_image_path "indir" "s/b.png" ∧
    resolve_image_path "indir" "/abs.png" = "/abs.png" :=
  ⟨(resolve_image_path_characterization "indir" "b.png").2.1 (by decide),
   ((resolve_image_path_characterization "indir" "b.png").2.2 (by decide)).mpr
     (by decide),
   fun he => (by decide : ¬ ∀ c ∈ ("s/b.png" : String).data, c ≠ '/')
     (((resolve_image_path_characterization "indir" "s/b.png").2.2 (by decide)).mp he),
   (resolve_image_path_characterization "indir" "/abs.png").1 (by decide)⟩

/-- Counterexample to C3 as stated: a relative `imagePath` with a
directory component is not resolved against the input directory — its
directory part is dropped, because the source joins the basename only
(`q.py` line 106). -/
theorem resolve_image_path_drops_subdir :
    resolve_image_path "in" "sub/a.png" = "in/a.png" ∧
    spec_resolve_image_path "in" "sub/a.png" = "in/sub/a.png" ∧
    resolve_image_path "in" "sub/a.png" ≠ spec_resolve_image_path "in" "sub/a.png" := by
  refine ⟨by decide, by decide, by decide⟩

/-! ### The full-canvas rectangle fill -/

/-- Every canvas pixel lies inside the full-canvas rectangle: the
horizontal ray from `(x, y)` crosses exactly the right edge. -/
lemma inPoly_rect (W H x y : Nat) (hx : x < W) (hy : y < H) :
    inPoly (rectPts W H) x y = true := by
  have hxi : (x : Int) < (W : Int) := by exact_mod_cast hx
  have hyi : (y : Int) < (H : Int) := by exact_mod_cast hy
  have hx0 : (0 : Int) ≤ (x : Int) := Int.natCast_nonneg x
  have hy0 : (0 : Int) ≤ (y : Int) := Int.natCast_nonneg y
  have hH : (0 : Int) < (H : Int) := lt_of_le_of_lt hy0 hyi
  have h1 : edgeCross x y ((0, 0), ((W : Int), 0)) = false := by
    unfold edgeCross
    dsimp only
    rw [Bool.and_eq_false_iff]
    left
    rw [Bool.or_eq_false_iff]
    constructor <;> · rw [Bool.and_eq_false_iff]; right; rw [decide_eq_false_iff_not]; omega
  have h2 : edgeCross x y (((W : Int), 0), ((W : Int), (H : Int))) = true := by
    unfold edgeCross
    dsimp only
    rw [Bool.and_eq_true]
    constructor
    · rw [Bool.or_eq_true]
      left
      rw [Bool.and_eq_true, decide_eq_true_eq, decide_eq_true_eq]
      exact ⟨hy0, hyi⟩
    · rw [if_pos hH, decide_eq_true_eq]
      have hr : ((y : Int) - 0) * ((W : Int) - (W : Int)) = 0 := by ring
      rw [hr]
      have hl : ((x : Int) - (W : Int)) * ((H : Int) - 0) < 0 :=
        mul_neg_of_neg_of_pos (by omega) (by omega)
      exact hl
  have h3 : edgeCross x y (((W : Int), (H : Int)), (0, (H : Int))) = false := by
    unfold edgeCross
    dsimp only
    rw [Bool.and_eq_false_iff]
    left
    rw [Bool.or_eq_false_iff]
    constructor <;> · rw [Bool.and_eq_false_iff]; left; rw [decide_eq_false_iff_not]; omega
  have h4 : edgeCross x y ((0, (H : Int)), (0, 0)) = false := by
    unfold edgeCross
    dsimp only
    rw [Bool.and_eq_false_iff]
    right
    rw [if_neg (by omega), decide_eq_false_iff_not, not_lt]
    have hl : ((x : Int) - 0) * (0 - (H : Int)) = -((x : Int) * (H : Int)) := by ring
    have hr : ((y : Int) - (H : Int)) * (0 - 0) = 0 := by ring
    rw [hl, hr]
    have : (0 : Int) ≤ (x : Int) * (H : Int) := mul_nonneg hx0 hH.le
    omega
  show ((List.countP (edgeCross (x : Int) (y : Int))
      [((0, 0), ((W : Int), 0)), (((W : Int), 0), ((W : Int), (H : Int))),
       (((W : Int), (H : Int)), (0, (H : Int))), ((0, (H : Int)), (0, 0))]) % 2 == 1) = true
  rw [List.countP_cons, List.countP_cons, List.countP_cons, List.countP_cons,
    List.countP_nil, h1, h2, h3, h4]
  rfl

/-- C6: rasterizing a record whose single shape is the full-canvas
rectangle with a label mapped to class id `c` (with palette color `col`)
yields an index mask whose every canvas pixel is `c` and a color mask
whose every canvas pixel is `col`, with no warnings. -/
theorem rasterize_full_canvas (W H : Nat) (path lbl mdir cdir : String)
    (mapping : List (String × Nat)) (palette : List Color) (c : Nat) (col : Color)
    (hm : mapping.lookup lbl = some c) (hp : palette[c]? = some col) :
    ∃ o : MaskOutput,
      json_to_mask mdir cdir ⟨W, H, path, [⟨lbl, rectPts W H⟩]⟩ mapping palette
        = some o ∧
      o.warnings = [] ∧
      (∀ x y, x < W → y < H → o.mask x y = c) ∧
      (∀ x y, x < W → y < H → o.colorMask x y = col) := by
  unfold json_to_mask drawShapes
  dsimp only
  rw [hm]
  dsimp only
  rw [hp]
  unfold drawShapes
  refine ⟨_, rfl, rfl, ?_, ?_⟩
  · intro x y hx hy
    show (if inPoly (rectPts W H) x y then c else 0) = c
    rw [inPoly_rect W H x y hx hy]
    rfl
  · intro x y hx hy
    show (if inPoly (rectPts W H) x y then col else (0, 0, 0)) = col
    rw [inPoly_rect W H x y hx hy]
    rfl

/-- Witness for C6: the 4×4 record with the `"cat"` shape of the spec's
example. -/
theorem rasterize_full_canvas_witness :
    mappingCat.lookup "cat" = some 1 ∧ paletteCat[1]? = some (10, 20, 30) ∧
    (∃ o : MaskOutput,
      json_to_mask "masks" "color_masks"
          ⟨4, 4, "a.png", [⟨"cat", rectPts 4 4⟩]⟩ mappingCat paletteCat
        = some o ∧
      o.warnings = [] ∧
      (∀ x y, x < 4 → y < 4 → o.mask x y = 1) ∧
      (∀ x y, x < 4 → y < 4 → o.colorMask x y = (10, 20, 30))) :=
  ⟨by decide, by decide,
   rasterize_full_canvas 4 4 "a.png" "cat" "masks" "color_masks"
     mappingCat paletteCat 1 (10, 20, 30) (by decide) (by decide)⟩

/-! ### Skipping unmapped labels -/

lemma drawShapes_warnings (mapping : List (String × Nat)) (palette : List Color) :
    ∀ (shapes : List Shape) (m : Nat → Nat → Nat) (cv : Nat → Nat → Color)
      (w : List String),
      drawShapes mapping palette shapes m cv w
        = (drawShapes mapping palette shapes m cv []).map
            (fun t => (t.1, t.2.1, w ++ t.2.2))
  | [], m, cv, w => by simp [drawShapes]
  | s :: rest, m, cv, w => by
    cases hm : mapping.lookup s.label with
    | none =>
      simp only [drawShapes, hm, List.nil_append]
      rw [drawShapes_warnings mapping palette rest m cv (w ++ [s.label]),
          drawShapes_warnings mapping palette rest m cv [s.label], Option.map_map]
      congr 1
      funext t
      simp
    | some cid =>
      cases hp : palette[cid]? with
      | none => simp only [drawShapes, hm, hp, Option.map_none']
      | some col =>
        simp only [drawShapes, hm, hp]
        exact drawShapes_warnings mapping palette rest _ _ w

lemma drawShapes_skip (mapping : List (String × Nat)) (palette : List Color)
    (s : Shape) (rest : List Shape) (m : Nat → Nat → Nat) (cv : Nat → Nat → Color)
    (h : mapping.lookup s.label = none) :
    drawShapes mapping palette (s :: rest) m cv []
      = (drawShapes mapping palette rest m cv []).map
          (fun t => (t.1, t.2.1, s.label :: t.2.2)) := by
  simp only [drawShapes, h, List.nil_append]
  exact drawShapes_warnings mapping palette rest m cv [s.label]

/-- C4: a shape whose label is absent from the class mapping is skipped:
rasterizing `s :: rest` produces the same masks as rasterizing `rest`
alone, with the skipped label prepended to the warnings; in particular a
record whose only shape is unmapped yields the all-zero index mask and
all-black color mask with exactly that warning, and a single-file batch
over such a record still counts it as processed (no error). -/
theorem unmapped_label_skipped (mdir cdir input_dir ob name path : String)
    (fs : String → Bool) (mapping : List (String × Nat)) (palette : List Color)
    (W H : Nat) (s : Shape) (rest : List Shape)
    (h : mapping.lookup s.label = none) :
    (json_to_mask mdir cdir ⟨W, H, path, s :: rest⟩ mapping palette
      = (json_to_mask mdir cdir ⟨W, H, path, rest⟩ mapping palette).map
          (fun o => ⟨o.mask, o.colorMask, s.label :: o.warnings,
                     o.maskPath, o.colorMaskPath⟩)) ∧
    (∃ o : MaskOutput,
      json_to_mask mdir cdir ⟨W, H, path, [s]⟩ mapping palette = some o ∧
      o.warnings = [s.label] ∧ (∀ x y, o.mask x y = 0) ∧
      (∀ x y, o.colorMask x y = (0, 0, 0))) ∧
    (isJsonFile name = true →
      (process_labelme_folder input_dir ob fs mapping palette
          [(name, some ⟨W, H, path, [s]⟩)]).processed = 1 ∧
      (process_labelme_folder input_dir ob fs mapping palette
          [(name, some ⟨W, H, path, [s]⟩)]).errors = 0) := by
  have hsingle : ∀ mdir2 cdir2 : String,
      json_to_mask mdir2 cdir2 ⟨W, H, path, [s]⟩ mapping palette
        = some ⟨fun _ _ => 0, fun _ _ => (0, 0, 0), [s.label],
            joinPath mdir2 (stripExt (basename path) ++ ".png"),
            joinPath cdir2 (stripExt (basename path) ++ "_color.png")⟩ := by
    intro mdir2 cdir2
    unfold json_to_mask
    rw [drawShapes_skip mapping palette s [] _ _ h]
    rfl
  refine ⟨?_, ⟨_, hsingle mdir cdir, rfl, fun _ _ => rfl, fun _ _ => rfl⟩, ?_⟩
  · unfold json_to_mask
    rw [drawShapes_skip mapping palette s rest _ _ h]
    cases hrest : drawShapes mapping palette rest (fun _ _ => 0)
        (fun _ _ => (0, 0, 0)) [] with
    | none => simp only [hrest, Option.map_none']
    | some t =>
      obtain ⟨m2, c2, w2⟩ := t
      simp only [hrest, Option.map_some']
  · intro hjson
    unfold process_labelme_folder
    rw [List.foldl_cons, List.foldl_nil]
    unfold processStep
    rw [if_pos hjson]
    unfold process_one
    dsimp only
    rw [hsingle (joinPath ob "masks") (joinPath ob "color_masks")]
    exact ⟨rfl, rfl⟩

/-- Witness for C4: `"unknown_xyz"` is not in the two-class mapping. -/
theorem unmapped_label_skipped_witness :
    (mappingCat.lookup "unknown_xyz" = none) ∧
    ((json_to_mask "m" "c" ⟨4, 4, "a.png", shapeUnknown :: []⟩ mappingCat paletteCat
      = (json_to_mask "m" "c" ⟨4, 4, "a.png", []⟩ mappingCat paletteCat).map
          (fun o => ⟨o.mask, o.colorMask, shapeUnknown.label :: o.warnings,
                     o.maskPath, o.colorMaskPath⟩)) ∧
    (∃ o : MaskOutput,
      json_to_mask "m" "c" ⟨4, 4, "a.png", [shapeUnknown]⟩ mappingCat paletteCat
        = some o ∧
      o.warnings = [shapeUnknown.label] ∧ (∀ x y, o.mask x y = 0) ∧
      (∀ x y, o.colorMask x y = (0, 0, 0))) ∧
    (isJsonFile "a.json" = true →
      (process_labelme_folder "in" "out" (fun _ => false) mappingCat paletteCat
          [("a.json", some ⟨4, 4, "a.png", [shapeUnknown]⟩)]).processed = 1 ∧
      (process_labelme_folder "in" "out" (fun _ => false) mappingCat paletteCat
          [("a.json", some ⟨4, 4, "a.png", [shapeUnknown]⟩)]).errors = 0)) :=
  ⟨by decide,
   unmapped_label_skipped "m" "c" "in" "out" "a.json" "a.png" (fun _ => false)
     mappingCat paletteCat 4 4 shapeUnknown [] (by decide)⟩

/-! ### Batch bookkeeping lemmas -/

lemma combineBatch_empty_left (b : BatchResult) :
    combineBatch ⟨0, 0, [], []⟩ b = b := by
  cases b
  simp [combineBatch]

lemma combineBatch_assoc (a b c : BatchResult) :
    combineBatch (combineBatch a b) c = combineBatch a (combineBatch b c) := by
  cases a; cases b; cases c
  simp [combineBatch, Nat.add_assoc]

lemma process_foldl_acc (input_dir ob : String) (fs : String → Bool)
    (mapping : List (String × Nat)) (palette : List Color) :
    ∀ (files : List (String × Option LabelmeRecord)) (acc : BatchResult),
      files.foldl (processStep input_dir ob fs mapping palette) acc
        = combineBatch acc
            (files.foldl (processStep input_dir ob fs mapping palette) ⟨0, 0, [], []⟩)
  | [], acc => by
    cases acc
    simp [combineBatch]
  | f :: rest, acc => by
    rw [List.foldl_cons, List.foldl_cons,
      process_foldl_acc input_dir ob fs mapping palette rest
        (processStep input_dir ob fs mapping palette acc f),
      process_foldl_acc input_dir ob fs mapping palette rest
        (processStep input_dir ob fs mapping palette ⟨0, 0, [], []⟩ f)]
    unfold processStep
    by_cases hj : isJsonFile f.1 = true
    · rw [if_pos hj, if_pos hj, combineBatch_empty_left, combineBatch_assoc]
    · rw [if_neg hj, if_neg hj, combineBatch_empty_left]

lemma process_foldl_filter (input_dir ob : String) (fs : String → Bool)
    (mapping : List (String × Nat)) (palette : List Color) :
    ∀ (files : List (String × Option LabelmeRecord)) (acc : BatchResult),
      files.foldl (processStep input_dir ob fs mapping palette) acc
        = (files.filter (fun f => isJsonFile f.1)).foldl
            (processStep input_dir ob fs mapping palette) acc
  | [], _ => rfl
  | f :: rest, acc => by
    rw [List.foldl_cons, List.filter_cons]
    by_cases hj : isJsonFile f.1 = true
    · rw [if_pos hj, List.foldl_cons]
      exact process_foldl_filter input_dir ob fs mapping palette rest _
    · rw [if_neg hj]
      have hstep : processStep input_dir ob fs mapping palette acc f = acc := by
        unfold processStep
        rw [if_neg hj]
      rw [hstep]
      exact process_foldl_filter input_dir ob fs mapping palette rest acc

/-- C8: the batch orchestrator handles exactly the `.json`-named entries
of the directory listing (all other entries are ignored); its result
over a concatenation is the combination of the results over the parts
(so processing always continues past any record); and a `.json` file
that fails to parse contributes exactly one error and nothing else —
one bad file never aborts the batch. -/
theorem process_labelme_folder_partial_failure (input_dir ob : String)
    (fs : String → Bool) (mapping : List (String × Nat)) (palette : List Color) :
    (∀ files : List (String × Option LabelmeRecord),
      process_labelme_folder input_dir ob fs mapping palette files
        = process_labelme_folder input_dir ob fs mapping palette
            (files.filter (fun f => isJsonFile f.1))) ∧
    (∀ xs ys : List (String × Option LabelmeRecord),
      process_labelme_folder input_dir ob fs mapping palette (xs ++ ys)
        = combineBatch
            (process_labelme_folder input_dir ob fs mapping palette xs)
            (process_labelme_folder input_dir ob fs mapping palette ys)) ∧
    (∀ name : String, isJsonFile name = true →
      process_labelme_folder input_dir ob fs mapping palette [(name, none)]
        = ⟨0, 1, [], []⟩) := by
  refine ⟨?_, ?_, ?_⟩
  · intro files
    exact process_foldl_filter input_dir ob fs mapping palette files _
  · intro xs ys
    unfold process_labelme_folder
    rw [List.foldl_append]
    exact process_foldl_acc input_dir ob fs mapping palette ys _
  · intro name hname
    unfold process_labelme_folder
    rw [List.foldl_cons, List.foldl_nil]
    unfold processStep
    rw [if_pos hname]
    rfl

/-- Witness for C8: a parse failure in `bad.json` yields one error, a
non-`.json` entry is filtered out, and results combine across a split
listing. -/
theorem process_labelme_folder_partial_failure_witness :
    (isJsonFile "bad.json" = true) ∧
    process_labelme_folder "in" "out" (fun _ => false) mappingCat paletteCat
      [("bad.json", none)] = ⟨0, 1, [], []⟩ ∧
    process_labelme_folder "in" "out" (fun _ => false) mappingCat paletteCat
      ([("bad.json", none)] ++ [("notes.txt", none)])
      = combineBatch
          (process_labelme_folder "in" "out" (fun _ => false) mappingCat paletteCat
            [("bad.json", none)])
          (process_labelme_folder "in" "out" (fun _ => false) mappingCat paletteCat
            [("notes.txt", none)]) ∧
    process_labelme_folder "in" "out" (fun _ => false) mappingCat paletteCat
      [("notes.txt", none)]
      = process_labelme_folder "in" "out" (fun _ => false) mappingCat paletteCat
          ([("notes.txt", none)].filter (fun f => isJsonFile f.1)) :=
  ⟨by decide,
   (process_labelme_folder_partial_failure "in" "out" (fun _ => false)
     mappingCat paletteCat).2.2 "bad.json" (by decide),
   (process_labelme_folder_partial_failure "in" "out" (fun _ => false)
     mappingCat paletteCat).2.1 [("bad.json", none)] [("notes.txt", none)],
   (process_labelme_folder_partial_failure "in" "out" (fun _ => false)
     mappingCat paletteCat).1 [("notes.txt", none)]⟩

/-- C9: a successfully parsed and rasterized record whose resolved
source image does not exist on the filesystem is still counted as
processed (not as an error), both its masks are still written, and
nothing is copied into the images output area. -/
theorem missing_image_record (input_dir ob name : String) (fs : String → Bool)
    (mapping : List (String × Nat)) (palette : List Color) (r : LabelmeRecord)
    (hjson : isJsonFile name = true)
    (hmask : (json_to_mask (joinPath ob "masks") (joinPath ob "color_masks")
        r mapping palette).isSome = true)
    (hfs : fs (resolve_image_path input_dir r.imagePath) = false) :
    ∃ o : MaskOutput,
      json_to_mask (joinPath ob "masks") (joinPath ob "color_masks")
          r mapping palette = some o ∧
      process_labelme_folder input_dir ob fs mapping palette [(name, some r)]
        = ⟨1, 0, [], [o.maskPath, o.colorMaskPath]⟩ := by
  obtain ⟨o, ho⟩ := Option.isSome_iff_exists.mp hmask
  refine ⟨o, ho, ?_⟩
  unfold process_labelme_folder
  rw [List.foldl_cons, List.foldl_nil]
  unfold processStep
  rw [if_pos hjson]
  unfold process_one
  dsimp only
  rw [ho, hfs]
  simp [combineBatch]

/-- Witness for C9: a record whose image `img.png` is absent from the
(empty) filesystem. -/
theorem missing_image_record_witness :
    (isJsonFile "r.json" = true) ∧
    ((json_to_mask (joinPath "out" "masks") (joinPath "out" "color_masks")
        ⟨2, 2, "img.png", []⟩ mappingCat paletteCat).isSome = true) ∧
    ((fun _ => false : String → Bool)
        (resolve_image_path "in" (LabelmeRecord.imagePath ⟨2, 2, "img.png", []⟩))
      = false) ∧
    (∃ o : MaskOutput,
      json_to_mask (joinPath "out" "masks") (joinPath "out" "color_masks")
          ⟨2, 2, "img.png", []⟩ mappingCat paletteCat = some o ∧
      process_labelme_folder "in" "out" (fun _ => false) mappingCat paletteCat
          [("r.json", some ⟨2, 2, "img.png", []⟩)]
        = ⟨1, 0, [], [o.maskPath, o.colorMaskPath]⟩) :=
  ⟨by decide, by decide, rfl,
   missing_image_record "in" "out" "r.json" (fun _ => false) mappingCat paletteCat
     ⟨2, 2, "img.png", []⟩ (by decide) (by decide) rfl⟩

/-! ### The class-colors report -/

lemma class_colors_report_ok :
    ∀ (d : List (String × Nat)) (palette : List Color),
      (∀ p ∈ d, p.2 < palette.length) →
      ∃ lines, class_colors_report d palette = some lines ∧
        lines.map Prod.fst = d.map Prod.snd ∧
        lines.map (fun ln => ln.2.1) = d.map Prod.fst
  | [], _, _ => ⟨[], rfl, rfl, rfl⟩
  | p :: rest, palette, h => by
    obtain ⟨lines, hl, h1, h2⟩ := class_colors_report_ok rest palette
      (fun q hq => h q (List.mem_cons_of_mem _ hq))
    have hp : p.2 < palette.length := h p (List.mem_cons_self _ _)
    refine ⟨(p.2, p.1, palette[p.2]) :: lines, ?_, ?_, ?_⟩
    · unfold class_colors_report
      rw [List.getElem?_eq_getElem hp, hl]
    · simp [h1]
    · simp [h2]

/-- C7 (amended): for the mapping built by the vocabulary builder on
data containing no literal `"background"` label, and a palette of
matching length (as `process_labelme_folder` generates), the
class-colors report carries exactly one line per class, whose ids are
exactly `0, 1, …, n − 1` in strictly increasing order, with the class
names in the mapping's iteration order.  (The restrictions are forced by
`class_colors_report_background_cex`.) -/
theorem class_colors_report_sorted (records : List LabelmeRecord)
    (palette : List Color)
    (h : "background" ∉ labelList records)
    (hp : palette.length = (auto_detect_classes records).length) :
    ∃ lines,
      class_colors_report (auto_detect_classes records) palette = some lines ∧
      lines.length = (auto_detect_classes records).length ∧
      lines.map Prod.fst = List.range (auto_detect_classes records).length ∧
      (lines.map Prod.fst).Pairwise (· < ·) ∧
      lines.map (fun ln => ln.2.1) = "background" :: sortedLabels records := by
  have hids := auto_detect_classes_ids records h
  have hbound : ∀ p ∈ auto_detect_classes records, p.2 < palette.length := by
    intro p hpmem
    have hmem : p.2 ∈ (auto_detect_classes records).map Prod.snd :=
      List.mem_map_of_mem _ hpmem
    rw [hids] at hmem
    rw [hp]
    exact List.mem_range.mp hmem
  obtain ⟨lines, hl, h1, h2⟩ := class_colors_report_ok _ _ hbound
  refine ⟨lines, hl, ?_, ?_, ?_, ?_⟩
  · have hlen := congrArg List.length h1
    simpa using hlen
  · rw [h1, hids]
  · rw [h1, hids]
    exact List.pairwise_lt_range _
  · rw [h2, auto_detect_classes_keys records h]

/-- Witness for C7 at the two-label collection with a palette generated
by the palette generator at the mapping's size. -/
theorem class_colors_report_sorted_witness :
    ("background" ∉ labelList recordsW) ∧
    ((generate_class_colors 3 (fun _ => 5)).length
      = (auto_detect_classes recordsW).length) ∧
    (∃ lines,
      class_colors_report (auto_detect_classes recordsW)
          (generate_class_colors 3 (fun _ => 5)) = some lines ∧
      lines.length = (auto_detect_classes recordsW).length ∧
      lines.map Prod.fst = List.range (auto_detect_classes recordsW).length ∧
      (lines.map Prod.fst).Pairwise (· < ·) ∧
      lines.map (fun ln => ln.2.1) = "background" :: sortedLabels recordsW) :=
  ⟨by decide, by decide,
   class_colors_report_sorted recordsW (generate_class_colors 3 (fun _ => 5))
     (by decide) (by decide)⟩

/-- Counterexample to C7 as stated: on data whose only label is
literally `"background"`, the builder returns the mapping sending
`"background"` to 1 while the palette generated for one class has
length 1, so writing the report hits an out-of-range palette index
(Python raises `IndexError`) and no line at all is produced for the
class — in particular not one line per class in increasing id order. -/
theorem class_colors_report_background_cex :
    class_colors_report (auto_detect_classes recordsBg)
      (generate_class_colors (auto_detect_classes recordsBg).length (fun _ => 0))
      = none := by decide
